import Mathlib

/-!
Verification of the SEO-analyzer repository's link analyzer and aggregation
module (`modules/analyzer.py`) against its natural-language specification.

The analyzer's URL handling is performed by CPython 3.11's `urllib.parse`
(`urlparse`, `urljoin`); those library functions are embedded here at the
character-list level, translated from the CPython 3.11 source of
`Lib/urllib/parse.py` (`urlsplit`, `_splitparams`, `urlparse`, `urlunsplit`,
`urlunparse`, `urljoin`).  The `ValueError` branches of `urlsplit` for
bracketed (IPv6) host syntax and for non-ASCII netlocs are not modelled; no
input considered here contains brackets or non-ASCII characters.
Strings are processed via their underlying `List Char`, which keeps every
definition executable by kernel reduction.
-/

namespace SeoAnalyzer

/-- The whitespace characters removed by Python's `str.strip()` (ASCII range;
the repository's hrefs and URLs are ASCII). -/
def isPyWhitespace (c : Char) : Bool :=
  c = ' ' || c = '\t' || c = '\n' || c = '\r' || c = '\x0b' || c = '\x0c'

/-- `str.strip()` on the character list: drop leading and trailing whitespace. -/
def pyStripL (l : List Char) : List Char :=
  List.rdropWhile isPyWhitespace (l.dropWhile isPyWhitespace)

/-- Python `str.strip()`. -/
def pyStrip (s : String) : String :=
  String.mk (pyStripL s.data)

/-- Python `str.startswith(pre)`. -/
def pyStartsWith (s pre : String) : Bool :=
  pre.data.isPrefixOf s.data

/-- Split at the first occurrence of `sep`; `none` when `sep` is absent
(Python `str.split(sep, 1)` / `str.find`). -/
def splitOnFirstL (sep : Char) : List Char → Option (List Char × List Char)
  | [] => none
  | c :: rest =>
    if c = sep then some ([], rest)
    else
      match splitOnFirstL sep rest with
      | some (a, b) => some (c :: a, b)
      | none => none

/-- Python `str.split(sep)` for a one-character separator: splits at every
occurrence, keeping empty pieces (`"".split(s) = ['']`). -/
def splitAllL (sep : Char) : List Char → List (List Char)
  | [] => [[]]
  | c :: rest =>
    match splitAllL sep rest with
    | [] => [[c]]
    | h :: t => if c = sep then [] :: h :: t else (c :: h) :: t

/-- A C0 control character or space (`_WHATWG_C0_CONTROL_OR_SPACE`). -/
def c0OrSpace (c : Char) : Bool :=
  c.toNat ≤ 32

/-- Characters kept after removal of `_UNSAFE_URL_BYTES_TO_REMOVE`
(tab, CR, LF). -/
def keepUrlChar (c : Char) : Bool :=
  !(c = '\t' || c = '\r' || c = '\n')

/-- The sanitization `urlsplit` applies to its `url` argument:
`url.lstrip(_WHATWG_C0_CONTROL_OR_SPACE)` followed by removal of every tab,
CR and LF. -/
def sanitizeUrl (l : List Char) : List Char :=
  (l.dropWhile c0OrSpace).filter keepUrlChar

/-- The sanitization `urlsplit` applies to its default-`scheme` argument
(strip C0/space on both sides, then remove tab/CR/LF). -/
def sanitizeScheme (l : List Char) : List Char :=
  (((l.dropWhile c0OrSpace).reverse.dropWhile c0OrSpace).reverse).filter keepUrlChar

/-- `scheme_chars` of `urllib.parse`. -/
def schemeChar (c : Char) : Bool :=
  c.isAlpha || c.isDigit || c = '+' || c = '-' || c = '.'

/-- Scheme scanner: walks to the first `':'`, accumulating the characters
before it and failing on any character outside `scheme_chars`.  This is
CPython's `i = url.find(':')` followed by validation of `url[:i]`: if a
non-scheme character occurs before the first colon the validation fails
there, and if no colon exists there is no split, so the outcomes agree. -/
def goSplitScheme : List Char → List Char → Option (List Char × List Char)
  | _, [] => none
  | acc, c :: rest =>
    if c = ':' then some (acc, rest)
    else if schemeChar c then goSplitScheme (acc ++ [c]) rest
    else none

/-- The scheme-splitting step of `urlsplit`: requires the colon at an index
`i > 0`, an ASCII-alphabetic first character, and all of `url[:i]` in
`scheme_chars`. -/
def splitSchemeL : List Char → Option (List Char × List Char)
  | [] => none
  | c :: rest => if c.isAlpha then goSplitScheme [] (c :: rest) else none

/-- A character ending the netloc portion (`_splitnetloc` scans for the
earliest of `'/'`, `'?'`, `'#'`). -/
def netlocEnd (c : Char) : Bool :=
  c = '/' || c = '?' || c = '#'

/-- Result of `urlsplit`. -/
structure PySplit where
  scheme : List Char
  netloc : List Char
  path : List Char
  query : List Char
  fragment : List Char
deriving DecidableEq

/-- CPython 3.11 `urllib.parse.urlsplit(url, scheme=defaultScheme)` with
`allow_fragments=True`. -/
def urlsplitL (url : List Char) (defaultScheme : List Char) : PySplit :=
  let u := sanitizeUrl url
  let ds := sanitizeScheme defaultScheme
  let sr : List Char × List Char :=
    match splitSchemeL u with
    | some (sch, r) => (sch.map Char.toLower, r)
    | none => (ds, u)
  let scheme := sr.1
  let nr : List Char × List Char :=
    if (sr.2.take 2) = ['/', '/'] then
      ((sr.2.drop 2).takeWhile (fun c => !netlocEnd c),
       (sr.2.drop 2).dropWhile (fun c => !netlocEnd c))
    else ([], sr.2)
  let netloc := nr.1
  let rf : List Char × List Char :=
    match splitOnFirstL '#' nr.2 with
    | some (a, b) => (a, b)
    | none => (nr.2, [])
  let pq : List Char × List Char :=
    match splitOnFirstL '?' rf.1 with
    | some (a, b) => (a, b)
    | none => (rf.1, [])
  ⟨scheme, netloc, pq.1, pq.2, rf.2⟩

/-- `urlparse(url).netloc`, as used for the internal/external host
comparison. -/
def netlocOf (s : String) : String :=
  String.mk (urlsplitL s.data []).netloc

/-- `urlparse(url).scheme`, as used by the security check. -/
def schemeOf (s : String) : String :=
  String.mk (urlsplitL s.data []).scheme

/-- `uses_relative` of CPython 3.11 `urllib.parse`. -/
def usesRelativeL : List (List Char) :=
  ["", "ftp", "http", "gopher", "nntp", "imap", "wais", "file", "https",
   "shttp", "mms", "prospero", "rtsp", "rtsps", "rtspu", "sftp", "svn",
   "svn+ssh", "ws", "wss"].map String.data

/-- `uses_netloc` of CPython 3.11 `urllib.parse`. -/
def usesNetlocL : List (List Char) :=
  ["", "ftp", "http", "gopher", "nntp", "telnet", "imap", "wais", "file",
   "mms", "https", "shttp", "snews", "prospero", "rtsp", "rtsps", "rtspu",
   "rsync", "svn", "svn+ssh", "sftp", "nfs", "git", "git+ssh", "ws",
   "wss"].map String.data

/-- `uses_params` of CPython 3.11 `urllib.parse`. -/
def usesParamsL : List (List Char) :=
  ["", "ftp", "hdl", "prospero", "http", "imap", "https", "shttp", "rtsp",
   "rtsps", "rtspu", "sip", "sips", "mms", "sftp", "tel"].map String.data

/-- Result of `urlparse` (the `urlsplit` components plus `params`). -/
structure PyParse where
  scheme : List Char
  netloc : List Char
  path : List Char
  params : List Char
  query : List Char
  fragment : List Char
deriving DecidableEq

/-- `_splitparams(url)`: split the params off the last path segment
(`url.find(';', url.rfind('/'))` when the path contains `'/'`, else the
first `';'`). -/
def splitParamsL (p : List Char) : List Char × List Char :=
  if p.contains '/' then
    match (splitAllL '/' p).getLast? with
    | none => (p, [])
    | some lastSeg =>
      match splitOnFirstL ';' lastSeg with
      | none => (p, [])
      | some (a, b) =>
        (List.intercalate ['/'] ((splitAllL '/' p).dropLast ++ [a]), b)
  else
    match splitOnFirstL ';' p with
    | none => (p, [])
    | some (a, b) => (a, b)

/-- CPython 3.11 `urllib.parse.urlparse(url, scheme=defaultScheme)`. -/
def urlparseL (url : List Char) (defaultScheme : List Char) : PyParse :=
  let s := urlsplitL url defaultScheme
  if s.scheme ∈ usesParamsL ∧ s.path.contains ';' = true then
    let pp := splitParamsL s.path
    ⟨s.scheme, s.netloc, pp.1, pp.2, s.query, s.fragment⟩
  else
    ⟨s.scheme, s.netloc, s.path, [], s.query, s.fragment⟩

/-- The netloc-attaching step of `urlunsplit` (its first `if`). -/
def addNetloc (scheme netloc path : List Char) : List Char :=
  if netloc ≠ [] ∨ (scheme ≠ [] ∧ scheme ∈ usesNetlocL ∧ path.take 2 ≠ ['/', '/']) then
    '/' :: '/' :: (netloc ++ (if path ≠ [] ∧ path.take 1 ≠ ['/'] then '/' :: path else path))
  else path

/-- CPython 3.11 `urllib.parse.urlunsplit((scheme, netloc, path, query,
fragment))`. -/
def urlunsplitL (scheme netloc path query fragment : List Char) : List Char :=
  let u1 := addNetloc scheme netloc path
  let u2 := if scheme ≠ [] then scheme ++ ':' :: u1 else u1
  let u3 := if query ≠ [] then u2 ++ '?' :: query else u2
  if fragment ≠ [] then u3 ++ '#' :: fragment else u3

/-- CPython 3.11 `urllib.parse.urlunparse` (re-attach params, then
`urlunsplit`). -/
def urlunparseL (p : PyParse) : List Char :=
  let u := if p.params ≠ [] then p.path ++ ';' :: p.params else p.path
  urlunsplitL p.scheme p.netloc u p.query p.fragment

/-- `segments[1:-1] = filter(None, segments[1:-1])` applied to the tail of
the segment list: drop empty segments except the final one. -/
def filterEmptyKeepLast : List (List Char) → List (List Char)
  | [] => []
  | [a] => [a]
  | a :: b :: rest =>
    if a = [] then filterEmptyKeepLast (b :: rest)
    else a :: filterEmptyKeepLast (b :: rest)

/-- The `for seg in segments` loop of `urljoin`: `'..'` pops the resolved
path (ignoring underflow), `'.'` is skipped, anything else is appended. -/
def resolveSegs (acc : List (List Char)) : List (List Char) → List (List Char)
  | [] => acc
  | seg :: rest =>
    if seg = ['.', '.'] then resolveSegs acc.dropLast rest
    else if seg = ['.'] then resolveSegs acc rest
    else resolveSegs (acc ++ [seg]) rest

/-- The relative-path merging of `urljoin` (from `base_parts = bpath.split('/')`
down to `'/'.join(resolved_path) or '/'`). -/
def mergedPath (bpath upath : List Char) : List Char :=
  let segments :=
    if upath.take 1 = ['/'] then splitAllL '/' upath
    else
      let baseParts := splitAllL '/' bpath
      let baseParts :=
        if baseParts.getLast? = some [] then baseParts else baseParts.dropLast
      match baseParts ++ splitAllL '/' upath with
      | [] => []
      | s :: rest => s :: filterEmptyKeepLast rest
  let resolved := resolveSegs [] segments
  let resolved :=
    if segments.getLast? = some ['.'] ∨ segments.getLast? = some ['.', '.'] then
      resolved ++ [[]]
    else resolved
  let joined := List.intercalate ['/'] resolved
  if joined = [] then ['/'] else joined

/-- The body of `urljoin` after the two emptiness early returns. -/
def urljoinCore (base url : List Char) : List Char :=
  let b := urlparseL base []
  let u := urlparseL url b.scheme
  if ¬ (u.scheme = b.scheme ∧ u.scheme ∈ usesRelativeL) then url
  else if u.scheme ∈ usesNetlocL ∧ u.netloc ≠ [] then
    urlunparseL u
  else
    let netloc := if u.scheme ∈ usesNetlocL then b.netloc else u.netloc
    if u.path = [] ∧ u.params = [] then
      urlunparseL ⟨u.scheme, netloc, b.path, b.params,
        (if u.query = [] then b.query else u.query), u.fragment⟩
    else
      urlunparseL ⟨u.scheme, netloc, mergedPath b.path u.path, u.params,
        u.query, u.fragment⟩

/-- CPython 3.11 `urllib.parse.urljoin(base, url)`. -/
def urljoinL (base url : List Char) : List Char :=
  if base = [] then url
  else if url = [] then base
  else urljoinCore base url

/-- `urljoin` on strings, as called at `analyzer.py:92`. -/
def urljoin (base url : String) : String :=
  String.mk (urljoinL base.data url.data)

/-!
Spec-side definition of URL resolution.  The specification states that
relative hrefs are resolved "per RFC 3986 relative-reference resolution";
the following definitions follow the RFC's own words (Appendix B parsing,
Section 5.2 strict resolution, Section 5.3 recomposition) and exist solely
to be compared with the source-side `urljoin` above.
-/

/-- A URI reference split into its five RFC 3986 components; a component is
`none` when it is not present in the reference (RFC 3986 distinguishes
absent components from empty ones). -/
structure RfcRef where
  scheme : Option (List Char)
  authority : Option (List Char)
  path : List Char
  query : Option (List Char)
  fragment : Option (List Char)
deriving DecidableEq

/-- A character that terminates the scheme candidate in RFC 3986
Appendix B parsing (`[^:/?#]`). -/
def rfcSchemeEnd (c : Char) : Bool :=
  c = ':' || c = '/' || c = '?' || c = '#'

/-- RFC 3986 Appendix B: split a URI reference into its components. -/
def rfcParse (l : List Char) : RfcRef :=
  let pre := l.takeWhile (fun c => !rfcSchemeEnd c)
  let sr : Option (List Char) × List Char :=
    match l.drop pre.length with
    | ':' :: rest => if pre = [] then (none, l) else (some pre, rest)
    | _ => (none, l)
  let ar : Option (List Char) × List Char :=
    if sr.2.take 2 = ['/', '/'] then
      (some ((sr.2.drop 2).takeWhile (fun c => !netlocEnd c)),
       (sr.2.drop 2).dropWhile (fun c => !netlocEnd c))
    else (none, sr.2)
  let path := ar.2.takeWhile (fun c => !(c = '?' || c = '#'))
  let qf := ar.2.drop path.length
  let qr : Option (List Char) × List Char :=
    match qf with
    | '?' :: rest => (some (rest.takeWhile (· ≠ '#')), rest.dropWhile (· ≠ '#'))
    | _ => (none, qf)
  let fragment : Option (List Char) :=
    match qr.2 with
    | '#' :: rest => some rest
    | _ => none
  ⟨sr.1, ar.1, path, qr.1, fragment⟩

/-- RFC 3986 Section 5.2.4, "remove the last segment and its preceding
`'/'` (if any) from the output buffer". -/
def removeLastSeg (out : List Char) : List Char :=
  ((out.reverse.dropWhile (· ≠ '/')).drop 1).reverse

/-- RFC 3986 Section 5.2.4 `remove_dot_segments`, fuelled by the input
length (every loop iteration consumes at least one input character). -/
def removeDotSegsAux : Nat → List Char → List Char → List Char
  | 0, out, inp => out ++ inp
  | fuel + 1, out, inp =>
    if inp = [] then out
    else if ['.', '.', '/'].isPrefixOf inp then removeDotSegsAux fuel out (inp.drop 3)
    else if ['.', '/'].isPrefixOf inp then removeDotSegsAux fuel out (inp.drop 2)
    else if ['/', '.', '/'].isPrefixOf inp then removeDotSegsAux fuel out ('/' :: inp.drop 3)
    else if inp = ['/', '.'] then removeDotSegsAux fuel out ['/']
    else if ['/', '.', '.', '/'].isPrefixOf inp then
      removeDotSegsAux fuel (removeLastSeg out) ('/' :: inp.drop 4)
    else if inp = ['/', '.', '.'] then removeDotSegsAux fuel (removeLastSeg out) ['/']
    else if inp = ['.'] ∨ inp = ['.', '.'] then removeDotSegsAux fuel out []
    else
      match inp with
      | '/' :: t =>
        removeDotSegsAux fuel (out ++ '/' :: t.takeWhile (· ≠ '/')) (t.dropWhile (· ≠ '/'))
      | _ =>
        removeDotSegsAux fuel (out ++ inp.takeWhile (· ≠ '/')) (inp.dropWhile (· ≠ '/'))

/-- RFC 3986 Section 5.2.4 `remove_dot_segments`. -/
def removeDotSegs (l : List Char) : List Char :=
  removeDotSegsAux (l.length + 1) [] l

/-- RFC 3986 Section 5.2.3 `merge`: all but the last segment of the base
path (or `"/" ++ path` when the base has an authority and an empty path). -/
def rfcMerge (base : RfcRef) (rpath : List Char) : List Char :=
  if base.authority.isSome ∧ base.path = [] then '/' :: rpath
  else (base.path.reverse.dropWhile (· ≠ '/')).reverse ++ rpath

/-- RFC 3986 Section 5.2.2, strict transformation of a reference `r`
against `base`. -/
def rfcResolveRef (base r : RfcRef) : RfcRef :=
  if r.scheme.isSome then
    ⟨r.scheme, r.authority, removeDotSegs r.path, r.query, r.fragment⟩
  else if r.authority.isSome then
    ⟨base.scheme, r.authority, removeDotSegs r.path, r.query, r.fragment⟩
  else if r.path = [] then
    ⟨base.scheme, base.authority, base.path,
     (if r.query.isSome then r.query else base.query), r.fragment⟩
  else if r.path.take 1 = ['/'] then
    ⟨base.scheme, base.authority, removeDotSegs r.path, r.query, r.fragment⟩
  else
    ⟨base.scheme, base.authority, removeDotSegs (rfcMerge base r.path),
     r.query, r.fragment⟩

/-- RFC 3986 Section 5.3, component recomposition. -/
def rfcRecompose (t : RfcRef) : List Char :=
  (match t.scheme with | some s => s ++ [':'] | none => []) ++
  (match t.authority with | some a => '/' :: '/' :: a | none => []) ++
  t.path ++
  (match t.query with | some q => '?' :: q | none => []) ++
  (match t.fragment with | some f => '#' :: f | none => [])

/-- RFC 3986 relative-reference resolution of `r` against `base`
(the specification's stated resolution rule). -/
def rfcResolve (base r : String) : String :=
  String.mk (rfcRecompose (rfcResolveRef (rfcParse base.data) (rfcParse r.data)))

/-!
The link analyzer (`analyze_links`, `analyzer.py:65-124`).

A page is modelled as the list of its anchor elements, each carrying its
`href` attribute when that attribute is present (`none` when absent).  The
values themselves come from the DOM library, which is a black box here.
BeautifulSoup's `find_all("a", href=True)` matches every anchor whose
`href` attribute is present, whatever its value: in `bs4`'s
`SoupStrainer._matches`, the filter value `True` matches any non-`None`
attribute value, so an anchor with `href=""` is also extracted.

Python `set`s have no specified enumeration order; the `internal`/`external`
sets are modelled as insertion-ordered duplicate-free lists, fixing one
concrete enumeration order (the specification itself leaves the order
unspecified, see its Section 9).

Network traffic is abstracted by an oracle `net : String → Option Nat`
mapping a URL to the final status code of `requests.head(...)` when a
response is received, and to `none` when the request raises.
-/

/-- The outcome of the URL classifier (specification Section 4.1): the loop
body of `analyze_links` at `analyzer.py:82-92`. -/
inductive LinkClass where
  | Internal (url : String)
  | External (url : String)
  | Ignored
deriving DecidableEq

/-- `analyzer.py:83`: an href is skipped when it starts with `mailto:`,
`javascript:` or `#` (case-sensitively, after stripping). -/
def isIgnoredHref (h : String) : Bool :=
  pyStartsWith h "mailto:" || pyStartsWith h "javascript:" || pyStartsWith h "#"

/-- The per-href classification performed by the loop body of
`analyze_links` (`analyzer.py:82-92`): strip, skip ignored prefixes,
compare netlocs for absolute `http(s)` hrefs, resolve everything else
against the base URL. -/
def classify (base_url href : String) : LinkClass :=
  let h := pyStrip href
  if isIgnoredHref h then .Ignored
  else if pyStartsWith h "http://" || pyStartsWith h "https://" then
    if netlocOf h = netlocOf base_url then .Internal h else .External h
  else .Internal (urljoin base_url h)

/-- `set.add`: append when not already present (insertion-ordered model of
the Python set). -/
def setInsert (l : List String) (x : String) : List String :=
  if x ∈ l then l else l ++ [x]

/-- One step of the accumulation of `internal`/`external` over the page's
hrefs. -/
def linkFold (base_url : String) (acc : List String × List String)
    (href : String) : List String × List String :=
  match classify base_url href with
  | .Ignored => acc
  | .Internal u => (setInsert acc.1 u, acc.2)
  | .External u => (acc.1, setInsert acc.2 u)

/-- `check_url` (`analyzer.py:103-111`): a received response with status
`≥ 400` is broken (status attached), `< 400` is live (status attached), an
exception yields `(False, None)`. -/
def check_url (net : String → Option Nat) (u : String) : Bool × Option Nat :=
  match net u with
  | some code => if code ≥ 400 then (false, some code) else (true, some code)
  | none => (false, none)

/-- `list(links)[:max_check_links]`: the URLs actually probed
(`analyzer.py:114,119`). -/
def probed_links (links : List String) (max_check_links : Nat) : List String :=
  links.take max_check_links

/-- The broken-link accumulation loop (`analyzer.py:114-122`): probe the
first `max_check_links` URLs and keep `{url, status}` for each probe that
is not ok. -/
def brokenOf (net : String → Option Nat) (links : List String)
    (max_check_links : Nat) : List (String × Option Nat) :=
  (probed_links links max_check_links).filterMap fun u =>
    if (check_url net u).1 then none else some (u, (check_url net u).2)

/-- `soup.find_all("a", href=True)`: the hrefs of the anchors whose `href`
attribute is present (see the module comment above on BeautifulSoup's
`True` attribute filter). -/
def findAllAHref (page : List (Option String)) : List String :=
  page.filterMap id

/-- The result dict of `analyze_links` (`analyzer.py:94-100`),
`broken_*` entries being `{url, status}` pairs. -/
structure LinkResult where
  total_links_on_page : Nat
  internal_links : List String
  external_links : List String
  broken_internal : List (String × Option Nat)
  broken_external : List (String × Option Nat)
deriving DecidableEq

/-- `analyze_links(html, base_url, max_check_links)` (`analyzer.py:65-124`)
over the anchor model of the page and the network oracle. -/
def analyze_links (net : String → Option Nat) (page : List (Option String))
    (base_url : String) (max_check_links : Nat) : LinkResult :=
  let anchors := findAllAHref page
  let ie := anchors.foldl (linkFold base_url) ([], [])
  { total_links_on_page := anchors.length
    internal_links := ie.1
    external_links := ie.2
    broken_internal := brokenOf net ie.1 max_check_links
    broken_external := brokenOf net ie.2 max_check_links }

/-!
The remaining analyzers and the aggregator (`analyzer.py:11-60,129-225`).

`analyze_basic`, `analyze_word_count` and `analyze_images` are pure
BeautifulSoup extractions; no claim concerns their internals, so the page
model carries their outputs as abstract payloads (the DOM library is a
black box).  The `security` and `performance` checks re-fetch their URL;
each one's `requests.get` is abstracted by an `Except`-valued oracle:
`.error msg` models an exception (with `str(e) = msg`), `.ok` carries the
data read off the response.  Timing values measured by
`analyze_performance_simple` are wall-clock measurements and are carried
as abstract numbers.
-/

/-- Result of `analyze_basic` (`analyzer.py:36-43`). -/
structure BasicResult where
  title : String
  title_length : Nat
  meta_description : String
  meta_description_length : Nat
  h1 : List String
  h2 : List String
deriving DecidableEq

/-- Result of `analyze_images` (`analyzer.py:149`). -/
structure ImagesResult where
  total_images : Nat
  missing_alt_count : Nat
  missing_alt_examples : List String
  examples : List (String × String)
deriving DecidableEq

/-- A page: the extracted anchor hrefs together with the abstract payloads
of the DOM-only analyzers. -/
structure PageModel where
  anchors : List (Option String)
  basicData : BasicResult
  wordCountData : Nat
  imagesData : ImagesResult

/-- `analyze_basic(html)` (`analyzer.py:11-43`): a pure DOM extraction,
carried abstractly by the page model. -/
def analyze_basic (p : PageModel) : BasicResult :=
  p.basicData

/-- `analyze_word_count(html)` (`analyzer.py:48-60`): a pure DOM
extraction, carried abstractly by the page model. -/
def analyze_word_count (p : PageModel) : Nat :=
  p.wordCountData

/-- `analyze_images(html, base_url)` (`analyzer.py:129-149`): a pure DOM
extraction, carried abstractly by the page model. -/
def analyze_images (p : PageModel) : ImagesResult :=
  p.imagesData

/-- Result of `analyze_security` (`analyzer.py:156`). -/
structure SecurityResult where
  https : Bool
  status_code : Option Nat
  headers : List (String × String)
  error : Option String
deriving DecidableEq

/-- `analyze_security(url)` (`analyzer.py:154-164`): on a response, record
the status code, the headers and whether the URL's scheme is `https`; on an
exception, leave the defaults and record `str(e)` in `error`. -/
def analyze_security (net : String → Except String (Nat × List (String × String)))
    (url : String) : SecurityResult :=
  match net url with
  | .ok rc =>
    { https := schemeOf url = "https", status_code := some rc.1,
      headers := rc.2, error := none }
  | .error e =>
    { https := false, status_code := none, headers := [], error := some e }

/-- Result of `analyze_performance_simple` (`analyzer.py:171`). -/
structure PerfResult where
  time_to_first_byte : Option Nat
  total_download : Option Nat
  status_code : Option Nat
  error : Option String
deriving DecidableEq

/-- `analyze_performance_simple(url)` (`analyzer.py:166-183`): on a
response, record the two timings and the status code; on an exception,
leave the defaults and record `str(e)` in `error`. -/
def analyze_performance_simple (net : String → Except String (Nat × Nat × Nat))
    (url : String) : PerfResult :=
  match net url with
  | .ok t => ⟨some t.1, some t.2.1, some t.2.2, none⟩
  | .error e => ⟨none, none, none, some e⟩

/-- Python `str.lower()` (the check names handled here are ASCII). -/
def pyLower (s : String) : String :=
  String.mk (s.data.map Char.toLower)

/-- The default check list (`analyzer.py:201`). -/
def defaultChecks : List String :=
  ["basic", "wordcount", "links", "images", "security", "performance"]

/-- Python `str.split(",")`. -/
def splitCommas (s : String) : List String :=
  (splitAllL ',' s.data).map String.mk

/-- The `checks` argument normalization of `run_full_analysis`
(`analyzer.py:195-201`): `None`, an empty string and an empty list are
falsy and select the default list; otherwise a comma-separated string is
split and every name is stripped and lowercased. -/
def normalizeChecks : Option (String ⊕ List String) → List String
  | none => defaultChecks
  | some (Sum.inl s) =>
    if s.data = [] then defaultChecks
    else (splitCommas s).map fun c => pyLower (pyStrip c)
  | some (Sum.inr l) =>
    if l = [] then defaultChecks
    else l.map fun c => pyLower (pyStrip c)

/-- The result dict of `run_full_analysis` (`analyzer.py:203-225`); a field
is `none` exactly when its key was never set. -/
structure AnalysisResult where
  url : String
  timestamp : Nat
  checks_run : List String
  basic : Option BasicResult
  word_count : Option Nat
  links : Option LinkResult
  images : Option ImagesResult
  security : Option SecurityResult
  performance : Option PerfResult

/-- `run_full_analysis(html, base_url, checks)` (`analyzer.py:188-225`):
normalize the selection, then attach each selected analyzer's output.
`now` stands for `int(time.time())`; the three oracles abstract the
network as described above (`headNet` backs the link probes, `secNet` and
`perfNet` the two re-fetching checks). -/
def run_full_analysis (headNet : String → Option Nat)
    (secNet : String → Except String (Nat × List (String × String)))
    (perfNet : String → Except String (Nat × Nat × Nat))
    (page : PageModel) (base_url : String) (now : Nat)
    (checks : Option (String ⊕ List String)) : AnalysisResult :=
  let cs := normalizeChecks checks
  { url := base_url
    timestamp := now
    checks_run := cs
    basic := if "basic" ∈ cs then some (analyze_basic page) else none
    word_count := if "wordcount" ∈ cs then some (analyze_word_count page) else none
    links := if "links" ∈ cs then some (analyze_links headNet page.anchors base_url 50) else none
    images := if "images" ∈ cs then some (analyze_images page) else none
    security := if "security" ∈ cs then some (analyze_security secNet base_url) else none
    performance := if "performance" ∈ cs then some (analyze_performance_simple perfNet base_url) else none }

/-!  Concrete sample inputs used by the witnesses. -/

/-- A trivial basic-analysis payload. -/
def sampleBasic : BasicResult :=
  ⟨"", 0, "", 0, [], []⟩

/-- A trivial image-analysis payload. -/
def sampleImages : ImagesResult :=
  ⟨0, 0, [], []⟩

/-- The specification's end-to-end example page: anchors `#top`, `/p`,
`https://ext.com`. -/
def samplePage : PageModel :=
  ⟨[some "#top", some "/p", some "https://ext.com"], sampleBasic, 0, sampleImages⟩

/-- A probe oracle on which every request raises. -/
def failHead : String → Option Nat :=
  fun _ => none

/-- A security-check oracle on which every request raises. -/
def failSec : String → Except String (Nat × List (String × String)) :=
  fun _ => .error "boom"

/-- A performance-check oracle on which every request raises. -/
def failPerf : String → Except String (Nat × Nat × Nat) :=
  fun _ => .error "timeout"

/-- A security-check oracle that answers 200 with no headers. -/
def okSec : String → Except String (Nat × List (String × String)) :=
  fun _ => .ok (200, [])

/-- A performance-check oracle that answers instantly with 200. -/
def okPerf : String → Except String (Nat × Nat × Nat) :=
  fun _ => .ok (0, 0, 200)

/-- C3. The liveness probe `check_url` returns `isLive = true` exactly when
a response was received with status code strictly below 400, attaches the
received status code whenever a response was received, and converts any
exception of the network operation into `(False, None)`; as a total
function of the network oracle it propagates no exception. -/
theorem c3_check_url_liveness (net : String → Option Nat) (u : String) :
    ((check_url net u).1 = true ↔ ∃ c, net u = some c ∧ c < 400) ∧
    (net u = none → check_url net u = (false, none)) ∧
    (∀ c, net u = some c → (check_url net u).2 = some c) := by
  refine ⟨?_, ?_, ?_⟩
  · cases h : net u with
    | none => simp [check_url, h]
    | some c =>
      by_cases hc : c ≥ 400 <;> simp [check_url, h, hc]
      omega
  · intro h; simp [check_url, h]
  · intro c h
    by_cases hc : c ≥ 400 <;> simp [check_url, h, hc]

/-- Witness for C3 at concrete inputs: a 200 response is live, a 404
response is dead with the code attached, an exception yields
`(False, None)`. -/
theorem c3_witness :
    (check_url (fun _ => some 200) "http://a.com/").1 = true ∧
    check_url failHead "http://a.com/" = (false, none) ∧
    (check_url (fun _ => some 404) "http://a.com/").2 = some 404 :=
  ⟨(c3_check_url_liveness (fun _ => some 200) "http://a.com/").1.mpr
      ⟨200, rfl, by decide⟩,
   (c3_check_url_liveness failHead "http://a.com/").2.1 rfl,
   (c3_check_url_liveness (fun _ => some 404) "http://a.com/").2.2 404 rfl⟩

/-- C10. When the security check's GET request fails, the returned
sub-result reports `https = false` and `status_code = none`, whatever the
URL's scheme: the scheme test `urlparse(url).scheme == "https"` is only
reached after a successful request. -/
theorem c10_security_error_defaults
    (net : String → Except String (Nat × List (String × String)))
    (url : String) (e : String) (h : net url = Except.error e) :
    (analyze_security net url).https = false ∧
    (analyze_security net url).status_code = none := by
  simp [analyze_security, h]

/-- Witness for C10: an HTTPS URL whose request raises still gets
`https = false` and `status_code = none`. -/
theorem c10_witness :
    pyStartsWith "https://example.com" "https://" = true ∧
    (analyze_security failSec "https://example.com").https = false ∧
    (analyze_security failSec "https://example.com").status_code = none := by
  refine ⟨rfl, ?_, ?_⟩
  · exact (c10_security_error_defaults failSec "https://example.com" "boom" rfl).1
  · exact (c10_security_error_defaults failSec "https://example.com" "boom" rfl).2

/-- C9. The security and performance checks never raise on network
failure: an exception of their independent re-fetch is captured as a
string in that check's own `error` field, and swapping either check's
network outcome (in particular to a failing one) leaves every other
check's result — and the presence of both sub-results — unchanged. -/
theorem c9_check_failures_isolated (headNet : String → Option Nat)
    (secNet secNet' : String → Except String (Nat × List (String × String)))
    (perfNet perfNet' : String → Except String (Nat × Nat × Nat))
    (page : PageModel) (base_url : String) (now : Nat)
    (checks : Option (String ⊕ List String)) :
    (∀ e, secNet base_url = Except.error e →
      (analyze_security secNet base_url).error = some e) ∧
    (∀ e, perfNet base_url = Except.error e →
      (analyze_performance_simple perfNet base_url).error = some e) ∧
    (run_full_analysis headNet secNet perfNet page base_url now checks).basic =
      (run_full_analysis headNet secNet' perfNet' page base_url now checks).basic ∧
    (run_full_analysis headNet secNet perfNet page base_url now checks).word_count =
      (run_full_analysis headNet secNet' perfNet' page base_url now checks).word_count ∧
    (run_full_analysis headNet secNet perfNet page base_url now checks).links =
      (run_full_analysis headNet secNet' perfNet' page base_url now checks).links ∧
    (run_full_analysis headNet secNet perfNet page base_url now checks).images =
      (run_full_analysis headNet secNet' perfNet' page base_url now checks).images ∧
    (run_full_analysis headNet secNet perfNet page base_url now checks).checks_run =
      (run_full_analysis headNet secNet' perfNet' page base_url now checks).checks_run ∧
    ((run_full_analysis headNet secNet perfNet page base_url now checks).security.isSome ↔
      (run_full_analysis headNet secNet' perfNet' page base_url now checks).security.isSome) ∧
    ((run_full_analysis headNet secNet perfNet page base_url now checks).performance.isSome ↔
      (run_full_analysis headNet secNet' perfNet' page base_url now checks).performance.isSome) := by
  refine ⟨?_, ?_, rfl, rfl, rfl, rfl, rfl, ?_, ?_⟩
  · intro e h; simp [analyze_security, h]
  · intro e h; simp [analyze_performance_simple, h]
  · by_cases hs : "security" ∈ normalizeChecks checks <;>
      simp [run_full_analysis, hs]
  · by_cases hp : "performance" ∈ normalizeChecks checks <;>
      simp [run_full_analysis, hp]

/-- Witness for C9: with both re-fetching checks raising, their messages
are captured in the respective `error` fields and the links result is the
same as under succeeding oracles. -/
theorem c9_witness :
    failSec "https://site.com" = Except.error "boom" ∧
    failPerf "https://site.com" = Except.error "timeout" ∧
    (analyze_security failSec "https://site.com").error = some "boom" ∧
    (analyze_performance_simple failPerf "https://site.com").error = some "timeout" ∧
    (run_full_analysis failHead failSec failPerf samplePage "https://site.com" 0 none).links =
      (run_full_analysis failHead okSec okPerf samplePage "https://site.com" 0 none).links := by
  have h := c9_check_failures_isolated failHead failSec okSec failPerf okPerf
    samplePage "https://site.com" 0 none
  exact ⟨rfl, rfl, h.1 "boom" rfl, h.2.1 "timeout" rfl, h.2.2.2.2.1⟩

/-- C6. Each of the six optional result fields is present exactly when its
(lowercased, stripped) check name occurs in `checks_run`; unrecognized
names simply fail all six membership tests and so produce no field, and
`run_full_analysis` is total on every selection. -/
theorem c6_fields_present_iff (headNet : String → Option Nat)
    (secNet : String → Except String (Nat × List (String × String)))
    (perfNet : String → Except String (Nat × Nat × Nat))
    (page : PageModel) (base_url : String) (now : Nat)
    (checks : Option (String ⊕ List String)) :
    ((run_full_analysis headNet secNet perfNet page base_url now checks).basic.isSome ↔
      "basic" ∈ (run_full_analysis headNet secNet perfNet page base_url now checks).checks_run) ∧
    ((run_full_analysis headNet secNet perfNet page base_url now checks).word_count.isSome ↔
      "wordcount" ∈ (run_full_analysis headNet secNet perfNet page base_url now checks).checks_run) ∧
    ((run_full_analysis headNet secNet perfNet page base_url now checks).links.isSome ↔
      "links" ∈ (run_full_analysis headNet secNet perfNet page base_url now checks).checks_run) ∧
    ((run_full_analysis headNet secNet perfNet page base_url now checks).images.isSome ↔
      "images" ∈ (run_full_analysis headNet secNet perfNet page base_url now checks).checks_run) ∧
    ((run_full_analysis headNet secNet perfNet page base_url now checks).security.isSome ↔
      "security" ∈ (run_full_analysis headNet secNet perfNet page base_url now checks).checks_run) ∧
    ((run_full_analysis headNet secNet perfNet page base_url now checks).performance.isSome ↔
      "performance" ∈ (run_full_analysis headNet secNet perfNet page base_url now checks).checks_run) := by
  refine ⟨?_, ?_, ?_, ?_, ?_, ?_⟩
  · by_cases hm : "basic" ∈ normalizeChecks checks <;>
      simp [run_full_analysis, hm]
  · by_cases hm : "wordcount" ∈ normalizeChecks checks <;>
      simp [run_full_analysis, hm]
  · by_cases hm : "links" ∈ normalizeChecks checks <;>
      simp [run_full_analysis, hm]
  · by_cases hm : "images" ∈ normalizeChecks checks <;>
      simp [run_full_analysis, hm]
  · by_cases hm : "security" ∈ normalizeChecks checks <;>
      simp [run_full_analysis, hm]
  · by_cases hm : "performance" ∈ normalizeChecks checks <;>
      simp [run_full_analysis, hm]

/-- Witness for C6: `checks="links"` yields `checks_run = ["links"]`, a
present links field and no other optional field; an unrecognized name
passes through `checks_run` without producing a field. -/
theorem c6_witness :
    ((run_full_analysis failHead okSec okPerf samplePage "https://site.com" 0
        (some (Sum.inl "links"))).links.isSome ↔
      "links" ∈ (run_full_analysis failHead okSec okPerf samplePage "https://site.com" 0
        (some (Sum.inl "links"))).checks_run) ∧
    (run_full_analysis failHead okSec okPerf samplePage "https://site.com" 0
      (some (Sum.inl "links"))).checks_run = ["links"] ∧
    (run_full_analysis failHead okSec okPerf samplePage "https://site.com" 0
      (some (Sum.inl "links"))).basic = none ∧
    (run_full_analysis failHead okSec okPerf samplePage "https://site.com" 0
      (some (Sum.inl "links"))).word_count = none ∧
    (run_full_analysis failHead okSec okPerf samplePage "https://site.com" 0
      (some (Sum.inl "links"))).images = none ∧
    (run_full_analysis failHead okSec okPerf samplePage "https://site.com" 0
      (some (Sum.inl "links"))).security = none ∧
    (run_full_analysis failHead okSec okPerf samplePage "https://site.com" 0
      (some (Sum.inl "links"))).performance = none ∧
    (run_full_analysis failHead okSec okPerf samplePage "https://site.com" 0
      (some (Sum.inl "weird, Links"))).checks_run = ["weird", "links"] := by
  refine ⟨(c6_fields_present_iff failHead okSec okPerf samplePage "https://site.com" 0
    (some (Sum.inl "links"))).2.2.1, rfl, rfl, rfl, rfl, rfl, rfl, rfl⟩

/-- C7. With an absent or empty `checks` argument, `run_full_analysis`
falls back to the canonical list, `checks_run` equals
`["basic","wordcount","links","images","security","performance"]`, and all
six checks are run (all six fields are present). -/
theorem c7_default_checks (headNet : String → Option Nat)
    (secNet : String → Except String (Nat × List (String × String)))
    (perfNet : String → Except String (Nat × Nat × Nat))
    (page : PageModel) (base_url : String) (now : Nat)
    (checks : Option (String ⊕ List String))
    (h : checks = none ∨ checks = some (Sum.inl "") ∨ checks = some (Sum.inr [])) :
    (run_full_analysis headNet secNet perfNet page base_url now checks).checks_run =
      ["basic", "wordcount", "links", "images", "security", "performance"] ∧
    (run_full_analysis headNet secNet perfNet page base_url now checks).basic.isSome = true ∧
    (run_full_analysis headNet secNet perfNet page base_url now checks).word_count.isSome = true ∧
    (run_full_analysis headNet secNet perfNet page base_url now checks).links.isSome = true ∧
    (run_full_analysis headNet secNet perfNet page base_url now checks).images.isSome = true ∧
    (run_full_analysis headNet secNet perfNet page base_url now checks).security.isSome = true ∧
    (run_full_analysis headNet secNet perfNet page base_url now checks).performance.isSome = true := by
  have hc : normalizeChecks checks = defaultChecks := by
    rcases h with h | h | h <;> subst h <;> simp [normalizeChecks]
  refine ⟨?_, ?_, ?_, ?_, ?_, ?_, ?_⟩ <;>
    simp [run_full_analysis, hc, defaultChecks]

/-- Witness for C7 at `checks = none` with concrete oracles and page. -/
theorem c7_witness :
    (run_full_analysis failHead okSec okPerf samplePage "https://site.com" 0 none).checks_run =
      ["basic", "wordcount", "links", "images", "security", "performance"] ∧
    (run_full_analysis failHead okSec okPerf samplePage "https://site.com" 0 none).basic.isSome = true ∧
    (run_full_analysis failHead okSec okPerf samplePage "https://site.com" 0 none).word_count.isSome = true ∧
    (run_full_analysis failHead okSec okPerf samplePage "https://site.com" 0 none).links.isSome = true ∧
    (run_full_analysis failHead okSec okPerf samplePage "https://site.com" 0 none).images.isSome = true ∧
    (run_full_analysis failHead okSec okPerf samplePage "https://site.com" 0 none).security.isSome = true ∧
    (run_full_analysis failHead okSec okPerf samplePage "https://site.com" 0 none).performance.isSome = true :=
  c7_default_checks failHead okSec okPerf samplePage "https://site.com" 0 none (Or.inl rfl)

/-- A broken entry's URL comes from the probed prefix of the link list. -/
lemma mem_brokenOf_probed (net : String → Option Nat) (links : List String)
    (maxC : Nat) (p : String × Option Nat) (hp : p ∈ brokenOf net links maxC) :
    p.1 ∈ probed_links links maxC := by
  simp only [brokenOf, List.mem_filterMap] at hp
  obtain ⟨a, ha, hf⟩ := hp
  by_cases hok : (check_url net a).1 = true
  · simp [hok] at hf
  · simp only [hok, Bool.false_eq_true, if_false] at hf
    obtain rfl : p = (a, (check_url net a).2) := (Option.some.inj hf).symm
    exact ha

/-- C4. `analyze_links` probes at most `max_check_links` URLs from each of
the two link sets (all of them when a set is small enough), so every
broken entry's URL is drawn from the first `max_check_links` elements of
the corresponding link list, and the broken lists are subsets of the link
lists. -/
theorem c4_probe_budget (net : String → Option Nat) (page : List (Option String))
    (base_url : String) (maxC : Nat) :
    (probed_links (analyze_links net page base_url maxC).internal_links maxC).length ≤ maxC ∧
    (probed_links (analyze_links net page base_url maxC).external_links maxC).length ≤ maxC ∧
    ((analyze_links net page base_url maxC).internal_links.length ≤ maxC →
      probed_links (analyze_links net page base_url maxC).internal_links maxC =
        (analyze_links net page base_url maxC).internal_links) ∧
    ((analyze_links net page base_url maxC).external_links.length ≤ maxC →
      probed_links (analyze_links net page base_url maxC).external_links maxC =
        (analyze_links net page base_url maxC).external_links) ∧
    (∀ p ∈ (analyze_links net page base_url maxC).broken_internal,
      p.1 ∈ probed_links (analyze_links net page base_url maxC).internal_links maxC) ∧
    (∀ p ∈ (analyze_links net page base_url maxC).broken_external,
      p.1 ∈ probed_links (analyze_links net page base_url maxC).external_links maxC) ∧
    (∀ p ∈ (analyze_links net page base_url maxC).broken_internal,
      p.1 ∈ (analyze_links net page base_url maxC).internal_links) ∧
    (∀ p ∈ (analyze_links net page base_url maxC).broken_external,
      p.1 ∈ (analyze_links net page base_url maxC).external_links) := by
  refine ⟨?_, ?_, fun h => List.take_of_length_le h, fun h => List.take_of_length_le h,
    fun p hp => mem_brokenOf_probed net _ maxC p hp,
    fun p hp => mem_brokenOf_probed net _ maxC p hp,
    fun p hp => List.take_subset maxC _ (mem_brokenOf_probed net _ maxC p hp),
    fun p hp => List.take_subset maxC _ (mem_brokenOf_probed net _ maxC p hp)⟩
  · calc (List.take maxC (analyze_links net page base_url maxC).internal_links).length
        = maxC ⊓ (analyze_links net page base_url maxC).internal_links.length :=
          List.length_take _ _
      _ ≤ maxC := min_le_left _ _
  · calc (List.take maxC (analyze_links net page base_url maxC).external_links).length
        = maxC ⊓ (analyze_links net page base_url maxC).external_links.length :=
          List.length_take _ _
      _ ≤ maxC := min_le_left _ _

/-- Witness for C4 at a concrete page and limit: with `max_check_links = 1`
and every probe broken, only the first internal link produces a broken
entry, and it lies in the internal set. -/
theorem c4_witness :
    ((analyze_links (fun _ => some 404) [some "#top", some "/p", some "https://ext.com"]
        "https://site.com" 1).internal_links.length ≤ 1 →
      probed_links (analyze_links (fun _ => some 404)
          [some "#top", some "/p", some "https://ext.com"] "https://site.com" 1).internal_links 1 =
        (analyze_links (fun _ => some 404) [some "#top", some "/p", some "https://ext.com"]
          "https://site.com" 1).internal_links) ∧
    (∀ p ∈ (analyze_links (fun _ => some 404) [some "#top", some "/p", some "https://ext.com"]
        "https://site.com" 1).broken_internal,
      p.1 ∈ (analyze_links (fun _ => some 404) [some "#top", some "/p", some "https://ext.com"]
        "https://site.com" 1).internal_links) ∧
    (analyze_links (fun _ => some 404) [some "#top", some "/p", some "https://ext.com"]
      "https://site.com" 1).broken_internal = [("https://site.com/p", some 404)] := by
  refine ⟨(c4_probe_budget (fun _ => some 404)
      [some "#top", some "/p", some "https://ext.com"] "https://site.com" 1).2.2.1,
    (c4_probe_budget (fun _ => some 404)
      [some "#top", some "/p", some "https://ext.com"] "https://site.com" 1).2.2.2.2.2.2.1,
    by decide⟩

/-- One `set.add` grows the set by at most one element. -/
lemma setInsert_length_le (l : List String) (x : String) :
    (setInsert l x).length ≤ l.length + 1 := by
  unfold setInsert
  split
  · omega
  · simp

/-- Each processed href grows the two accumulated sets by at most one
element in total. -/
lemma foldl_linkFold_length_le (base : String) (hs : List String) :
    ∀ acc : List String × List String,
      (hs.foldl (linkFold base) acc).1.length + (hs.foldl (linkFold base) acc).2.length ≤
        acc.1.length + acc.2.length + hs.length := by
  induction hs with
  | nil => intro acc; simp
  | cons h t ih =>
    intro acc
    have hstep : (linkFold base acc h).1.length + (linkFold base acc h).2.length ≤
        acc.1.length + acc.2.length + 1 := by
      cases hcl : classify base h with
      | Ignored => simp [linkFold, hcl]
      | Internal u =>
        have := setInsert_length_le acc.1 u
        simp [linkFold, hcl]; omega
      | External u =>
        have := setInsert_length_le acc.2 u
        simp [linkFold, hcl]; omega
    calc (List.foldl (linkFold base) acc (h :: t)).1.length +
          (List.foldl (linkFold base) acc (h :: t)).2.length
        = (t.foldl (linkFold base) (linkFold base acc h)).1.length +
          (t.foldl (linkFold base) (linkFold base acc h)).2.length := by
          rw [List.foldl_cons]
      _ ≤ (linkFold base acc h).1.length + (linkFold base acc h).2.length + t.length := ih _
      _ ≤ acc.1.length + acc.2.length + 1 + t.length := by omega
      _ = acc.1.length + acc.2.length + (h :: t).length := by
          simp [List.length_cons]; omega

/-- C5. The page's anchor count dominates the sum of the sizes of the two
deduplicated link sets; the hypothesis fixes the claim's setting of a page
with at least one ignorable anchor (the inequality is what the claim
asserts there). -/
theorem c5_total_bounds_sets (net : String → Option Nat)
    (page : List (Option String)) (base_url : String) (maxC : Nat)
    (_h : (findAllAHref page).any (fun s => isIgnoredHref (pyStrip s)) = true) :
    (analyze_links net page base_url maxC).internal_links.length +
      (analyze_links net page base_url maxC).external_links.length ≤
      (analyze_links net page base_url maxC).total_links_on_page := by
  have hb := foldl_linkFold_length_le base_url (findAllAHref page) ([], [])
  simpa using hb

/-- Witness for C5 on the specification's example page (one ignorable
anchor `#top`, one internal, one external). -/
theorem c5_witness :
    ((findAllAHref [some "#top", some "/p", some "https://ext.com"]).any
      (fun s => isIgnoredHref (pyStrip s)) = true) ∧
    (analyze_links failHead [some "#top", some "/p", some "https://ext.com"]
        "https://site.com" 50).internal_links.length +
      (analyze_links failHead [some "#top", some "/p", some "https://ext.com"]
        "https://site.com" 50).external_links.length ≤
      (analyze_links failHead [some "#top", some "/p", some "https://ext.com"]
        "https://site.com" 50).total_links_on_page :=
  ⟨by decide,
   c5_total_bounds_sets failHead [some "#top", some "/p", some "https://ext.com"]
     "https://site.com" 50 (by decide)⟩

/-- `filterMap id` counts exactly the present options. -/
lemma length_filterMap_id_eq (l : List (Option String)) :
    (l.filterMap id).length = (l.filter (fun a => a.isSome)).length := by
  induction l with
  | nil => rfl
  | cons a t ih => cases a <;> simp [ih]

/-- Counterexample to C8 as stated: an anchor with an empty `href`
attribute is extracted by `find_all("a", href=True)` and counted in
`total_links_on_page`, although the page has no anchor with a nonempty
href. -/
theorem c8_counterexample :
    (analyze_links failHead [some ""] "http://a.com/" 50).total_links_on_page = 1 ∧
    ((findAllAHref [some ""]).filter (fun h => h ≠ "")).length = 0 :=
  ⟨rfl, rfl⟩

/-- C8 amended: `analyze_links` extracts exactly the anchors whose `href`
attribute is present — the value may be empty — and `total_links_on_page`
counts these anchors, including anchors later classified as ignored. -/
theorem c8_total_counts_present (net : String → Option Nat)
    (page : List (Option String)) (base_url : String) (maxC : Nat) :
    (analyze_links net page base_url maxC).total_links_on_page =
      (page.filter (fun a => a.isSome)).length := by
  show (findAllAHref page).length = _
  exact length_filterMap_id_eq page

/-- Witness for C8 on a page with a present, an absent and an empty
href. -/
theorem c8_witness :
    (analyze_links failHead [some "#top", none, some ""] "https://site.com" 50).total_links_on_page =
      ([some "#top", none, some ""].filter (fun a => a.isSome)).length ∧
    (analyze_links failHead [some "#top", none, some ""] "https://site.com" 50).total_links_on_page = 2 :=
  ⟨c8_total_counts_present failHead [some "#top", none, some ""] "https://site.com" 50,
   by decide⟩

/-!  String-level lemmas used by the link-classification claims. -/

/-- When `dropWhile` leaves a nonempty list, its head fails the
predicate. -/
lemma dropWhile_eq_cons_head_false (p : Char → Bool) :
    ∀ (l r : List Char) (a : Char), List.dropWhile p l = a :: r → p a = false := by
  intro l
  induction l with
  | nil => intro r a h; simp at h
  | cons c l ih =>
    intro r a h
    rw [List.dropWhile_cons] at h
    by_cases hc : p c = true
    · rw [hc] at h
      simp only [if_true] at h
      exact ih r a h
    · have hc' : p c = false := by simpa using hc
      rw [hc'] at h
      simp only [Bool.false_eq_true, if_false, List.cons.injEq] at h
      rw [← h.1, hc']

/-- Stripping is idempotent (as Python's `str.strip()` is). -/
lemma pyStripL_idem (l : List Char) : pyStripL (pyStripL l) = pyStripL l := by
  unfold pyStripL
  have h1 : List.dropWhile isPyWhitespace
      (List.rdropWhile isPyWhitespace (l.dropWhile isPyWhitespace)) =
      List.rdropWhile isPyWhitespace (l.dropWhile isPyWhitespace) := by
    rcases List.rdropWhile_prefix isPyWhitespace (l.dropWhile isPyWhitespace) with ⟨t, ht⟩
    cases hrd : List.rdropWhile isPyWhitespace (l.dropWhile isPyWhitespace) with
    | nil => simp
    | cons a s =>
      have hpa : isPyWhitespace a = false := by
        apply dropWhile_eq_cons_head_false isPyWhitespace l (s ++ t) a
        rw [hrd] at ht
        exact ht.symm
      rw [List.dropWhile_cons, hpa]
      simp
  rw [h1, List.rdropWhile_idempotent]

/-- `pyStrip` is idempotent. -/
lemma pyStrip_idem (s : String) : pyStrip (pyStrip s) = pyStrip s := by
  show String.mk (pyStripL (pyStripL s.data)) = String.mk (pyStripL s.data)
  rw [pyStripL_idem]

/-- A string starting with `http` matches none of the three ignored
prefixes. -/
lemma not_ignored_of_http_prefix (l : List Char)
    (h : "http".data.isPrefixOf l = true) : isIgnoredHref (String.mk l) = false := by
  obtain ⟨t, ht⟩ := List.isPrefixOf_iff_prefix.mp h
  subst ht
  rfl

/-- Stripping preserves an `http` prefix. -/
lemma pyStripL_http_prefix (l : List Char) (h : "http".data.isPrefixOf l = true) :
    "http".data.isPrefixOf (pyStripL l) = true := by
  obtain ⟨t, ht⟩ := List.isPrefixOf_iff_prefix.mp h
  subst ht
  unfold pyStripL
  have h1 : List.dropWhile isPyWhitespace ("http".data ++ t) = "http".data ++ t := rfl
  rw [h1]
  unfold List.rdropWhile
  rw [List.reverse_append]
  have h2 : ∀ r : List Char,
      "http".data.isPrefixOf
        (List.dropWhile isPyWhitespace (r ++ ("http".data).reverse)).reverse = true := by
    intro r
    induction r with
    | nil => rfl
    | cons c r ih =>
      by_cases hc : isPyWhitespace c = true
      · rw [List.cons_append, List.dropWhile_cons, hc]
        simpa using ih
      · have hc' : isPyWhitespace c = false := by simpa using hc
        rw [List.cons_append, List.dropWhile_cons, hc']
        simp only [Bool.false_eq_true, if_false, List.reverse_cons, List.reverse_append]
        refine List.isPrefixOf_iff_prefix.mpr ?_
        refine (List.prefix_append "http".data r.reverse).trans ?_
        rw [List.append_assoc]
        exact List.prefix_append _ _
  exact h2 t.reverse

/-- Stripping preserves an `http` prefix (string form). -/
lemma pyStrip_http_prefix (x : String) (h : "http".data.isPrefixOf x.data = true) :
    "http".data.isPrefixOf (pyStrip x).data = true :=
  pyStripL_http_prefix x.data h

/-!  Scheme and recomposition lemmas for the base-URL-relative claims. -/

/-- `urlparse` and `urlsplit` agree on the scheme component. -/
lemma urlparseL_scheme (l d : List Char) :
    (urlparseL l d).scheme = (urlsplitL l d).scheme := by
  simp only [urlparseL]
  split <;> rfl

/-- A URL of the shape `http:...` parses with scheme `http`. -/
lemma urlsplitL_scheme_http (t : List Char) :
    (urlsplitL ('h' :: 't' :: 't' :: 'p' :: ':' :: t) []).scheme = "http".data := rfl

/-- A URL of the shape `https:...` parses with scheme `https`. -/
lemma urlsplitL_scheme_https (t : List Char) :
    (urlsplitL ('h' :: 't' :: 't' :: 'p' :: 's' :: ':' :: t) []).scheme = "https".data := rfl

/-- `urlunsplit` with a nonempty scheme prepends `scheme ++ ":"`. -/
lemma urlunsplitL_scheme_shape (scheme netloc path query fragment : List Char)
    (h : scheme ≠ []) :
    ∃ rest, urlunsplitL scheme netloc path query fragment = scheme ++ ':' :: rest := by
  unfold urlunsplitL
  by_cases hq : query = []
  · by_cases hf : fragment = []
    · refine ⟨addNetloc scheme netloc path, ?_⟩
      simp [h, hq, hf]
    · refine ⟨addNetloc scheme netloc path ++ '#' :: fragment, ?_⟩
      simp [h, hq, hf, List.append_assoc]
  · by_cases hf : fragment = []
    · refine ⟨addNetloc scheme netloc path ++ '?' :: query, ?_⟩
      simp [h, hq, hf, List.append_assoc]
    · refine ⟨addNetloc scheme netloc path ++ '?' :: query ++ '#' :: fragment, ?_⟩
      simp [h, hq, hf, List.append_assoc]

/-- `urlunparse` of components whose scheme is `http` or `https` yields a
string starting with `http`. -/
lemma urlunparseL_http_prefix (p : PyParse)
    (h : p.scheme = "http".data ∨ p.scheme = "https".data) :
    "http".data.isPrefixOf (urlunparseL p) = true := by
  have hne : p.scheme ≠ [] := by
    rcases h with h | h <;> rw [h] <;> simp
  unfold urlunparseL
  obtain ⟨rest, hr⟩ := urlunsplitL_scheme_shape p.scheme p.netloc
    (if p.params ≠ [] then p.path ++ ';' :: p.params else p.path) p.query p.fragment hne
  rw [hr]
  rcases h with h | h <;> rw [h]
  · exact List.isPrefixOf_iff_prefix.mpr (List.prefix_append _ _)
  · have hs : "https".data ++ ':' :: rest = "http".data ++ 's' :: ':' :: rest := rfl
    rw [hs]
    exact List.isPrefixOf_iff_prefix.mpr (List.prefix_append _ _)

/-- `urljoinCore` either returns the reference unchanged or recomposes
components whose scheme is the base's parsed scheme. -/
lemma urljoinCore_eq_or_unparse (base url : List Char) :
    urljoinCore base url = url ∨
    ∃ p : PyParse, p.scheme = (urlparseL base []).scheme ∧
      urljoinCore base url = urlunparseL p := by
  unfold urljoinCore
  by_cases h1 : (urlparseL url (urlparseL base []).scheme).scheme = (urlparseL base []).scheme ∧
      (urlparseL url (urlparseL base []).scheme).scheme ∈ usesRelativeL
  · rw [if_neg (not_not_intro h1)]
    by_cases h2 : (urlparseL url (urlparseL base []).scheme).scheme ∈ usesNetlocL ∧
        (urlparseL url (urlparseL base []).scheme).netloc ≠ []
    · rw [if_pos h2]
      refine Or.inr ⟨_, ?_, rfl⟩
      exact h1.1
    · rw [if_neg h2]
      by_cases h3 : (urlparseL url (urlparseL base []).scheme).path = [] ∧
          (urlparseL url (urlparseL base []).scheme).params = []
      · rw [if_pos h3]
        refine Or.inr ⟨_, ?_, rfl⟩
        exact h1.1
      · rw [if_neg h3]
        refine Or.inr ⟨_, ?_, rfl⟩
        exact h1.1
  · rw [if_pos h1]
    exact Or.inl rfl

/-- Against a base URL that starts with `http://` or `https://`, `urljoin`
returns either the reference itself or a string starting with `http`. -/
lemma urljoinL_http_or_id (b u : List Char)
    (hb : "http://".data.isPrefixOf b = true ∨ "https://".data.isPrefixOf b = true) :
    "http".data.isPrefixOf (urljoinL b u) = true ∨ urljoinL b u = u := by
  have hsch : (urlparseL b []).scheme = "http".data ∨
      (urlparseL b []).scheme = "https".data := by
    rcases hb with hb | hb
    · obtain ⟨t, ht⟩ := List.isPrefixOf_iff_prefix.mp hb
      subst ht
      left
      rw [urlparseL_scheme]
      exact urlsplitL_scheme_http ('/' :: '/' :: t)
    · obtain ⟨t, ht⟩ := List.isPrefixOf_iff_prefix.mp hb
      subst ht
      right
      rw [urlparseL_scheme]
      exact urlsplitL_scheme_https ('/' :: '/' :: t)
  have hbp : "http".data.isPrefixOf b = true := by
    rcases hb with hb | hb
    · obtain ⟨t, ht⟩ := List.isPrefixOf_iff_prefix.mp hb
      subst ht
      exact List.isPrefixOf_iff_prefix.mpr ⟨[':', '/', '/'] ++ t, rfl⟩
    · obtain ⟨t, ht⟩ := List.isPrefixOf_iff_prefix.mp hb
      subst ht
      exact List.isPrefixOf_iff_prefix.mpr ⟨['s', ':', '/', '/'] ++ t, rfl⟩
  have hbne : b ≠ [] := by
    intro hc
    rw [hc] at hbp
    simp [List.isPrefixOf] at hbp
  unfold urljoinL
  rw [if_neg hbne]
  by_cases h2 : u = []
  · rw [if_pos h2]
    left
    exact hbp
  · rw [if_neg h2]
    rcases urljoinCore_eq_or_unparse b u with h | ⟨p, hps, he⟩
    · right; exact h
    · left
      rw [he]
      apply urlunparseL_http_prefix
      rw [hps]
      exact hsch

/-!  Shape of the classifier's outputs, and the C2 theorems. -/

/-- What an `Internal` classification can carry: either the stripped href
itself (with, in the absolute branch, an `http` prefix) or the `urljoin`
resolution of the stripped href; in both cases the stripped href passed
the ignore filter. -/
lemma classify_internal_shape (base h x : String)
    (hcl : classify base h = LinkClass.Internal x) :
    isIgnoredHref (pyStrip h) = false ∧
    (x = pyStrip h ∨ x = urljoin base (pyStrip h)) := by
  unfold classify at hcl
  by_cases hig : isIgnoredHref (pyStrip h) = true
  · rw [if_pos hig] at hcl
    cases hcl
  · have hig' : isIgnoredHref (pyStrip h) = false := by simpa using hig
    rw [if_neg (by simp [hig'])] at hcl
    refine ⟨hig', ?_⟩
    by_cases habs : (pyStartsWith (pyStrip h) "http://" ||
        pyStartsWith (pyStrip h) "https://") = true
    · rw [if_pos habs] at hcl
      by_cases hnet : netlocOf (pyStrip h) = netlocOf base
      · rw [if_pos hnet] at hcl
        exact Or.inl (LinkClass.Internal.inj hcl).symm
      · rw [if_neg hnet] at hcl
        cases hcl
    · rw [if_neg habs] at hcl
      exact Or.inr (LinkClass.Internal.inj hcl).symm

/-- An `External` classification carries the stripped href, which passed
the ignore filter and starts with `http`. -/
lemma classify_external_shape (base h x : String)
    (hcl : classify base h = LinkClass.External x) :
    isIgnoredHref (pyStrip h) = false ∧ x = pyStrip h ∧
    "http".data.isPrefixOf x.data = true := by
  unfold classify at hcl
  by_cases hig : isIgnoredHref (pyStrip h) = true
  · rw [if_pos hig] at hcl
    cases hcl
  · have hig' : isIgnoredHref (pyStrip h) = false := by simpa using hig
    rw [if_neg (by simp [hig'])] at hcl
    by_cases habs : (pyStartsWith (pyStrip h) "http://" ||
        pyStartsWith (pyStrip h) "https://") = true
    · rw [if_pos habs] at hcl
      by_cases hnet : netlocOf (pyStrip h) = netlocOf base
      · rw [if_pos hnet] at hcl
        cases hcl
      · rw [if_neg hnet] at hcl
        obtain rfl := (LinkClass.External.inj hcl).symm
        refine ⟨hig', rfl, ?_⟩
        rcases Bool.or_eq_true_iff.mp habs with hpre | hpre
        · obtain ⟨t, ht⟩ := List.isPrefixOf_iff_prefix.mp hpre
          rw [← ht]
          exact List.isPrefixOf_iff_prefix.mpr ⟨[':', '/', '/'] ++ t, rfl⟩
        · obtain ⟨t, ht⟩ := List.isPrefixOf_iff_prefix.mp hpre
          rw [← ht]
          exact List.isPrefixOf_iff_prefix.mpr ⟨['s', ':', '/', '/'] ++ t, rfl⟩
    · rw [if_neg habs] at hcl
      cases hcl

/-- Membership in `setInsert`. -/
lemma mem_setInsert (l : List String) (y x : String) (hx : x ∈ setInsert l y) :
    x ∈ l ∨ x = y := by
  unfold setInsert at hx
  by_cases hy : y ∈ l
  · rw [if_pos hy] at hx
    exact Or.inl hx
  · rw [if_neg hy] at hx
    rcases List.mem_append.mp hx with hx | hx
    · exact Or.inl hx
    · exact Or.inr (List.mem_singleton.mp hx)

/-- Everything in the accumulated internal (resp. external) list is either
initial or the payload of an `Internal` (resp. `External`) classification
of some processed href. -/
lemma mem_foldl_linkFold (base : String) (hs : List String) :
    ∀ (acc : List String × List String) (x : String),
      (x ∈ (hs.foldl (linkFold base) acc).1 →
        x ∈ acc.1 ∨ ∃ h ∈ hs, classify base h = LinkClass.Internal x) ∧
      (x ∈ (hs.foldl (linkFold base) acc).2 →
        x ∈ acc.2 ∨ ∃ h ∈ hs, classify base h = LinkClass.External x) := by
  induction hs with
  | nil =>
    intro acc x
    constructor <;> intro hx <;> exact Or.inl (by simpa using hx)
  | cons h t ih =>
    intro acc x
    constructor <;> intro hx <;> rw [List.foldl_cons] at hx
    · rcases (ih (linkFold base acc h) x).1 hx with hx' | ⟨h', hh', hcl⟩
      · cases hcl2 : classify base h with
        | Ignored =>
          rw [linkFold, hcl2] at hx'
          exact Or.inl hx'
        | Internal u =>
          rw [linkFold, hcl2] at hx'
          rcases mem_setInsert acc.1 u x hx' with hx'' | rfl
          · exact Or.inl hx''
          · exact Or.inr ⟨h, List.mem_cons_self h t, hcl2⟩
        | External u =>
          rw [linkFold, hcl2] at hx'
          exact Or.inl hx'
      · exact Or.inr ⟨h', List.mem_cons_of_mem h hh', hcl⟩
    · rcases (ih (linkFold base acc h) x).2 hx with hx' | ⟨h', hh', hcl⟩
      · cases hcl2 : classify base h with
        | Ignored =>
          rw [linkFold, hcl2] at hx'
          exact Or.inl hx'
        | Internal u =>
          rw [linkFold, hcl2] at hx'
          exact Or.inl hx'
        | External u =>
          rw [linkFold, hcl2] at hx'
          rcases mem_setInsert acc.2 u x hx' with hx'' | rfl
          · exact Or.inl hx''
          · exact Or.inr ⟨h, List.mem_cons_self h t, hcl2⟩
      · exact Or.inr ⟨h', List.mem_cons_of_mem h hh', hcl⟩

/-- Against an `http(s)://` base URL, no member of either produced link
list strips to an ignorable href. -/
lemma mem_links_not_ignored (net : String → Option Nat) (page : List (Option String))
    (base : String) (maxC : Nat) (x : String)
    (hb : pyStartsWith base "http://" = true ∨ pyStartsWith base "https://" = true)
    (hx : x ∈ (analyze_links net page base maxC).internal_links ∨
      x ∈ (analyze_links net page base maxC).external_links) :
    isIgnoredHref (pyStrip x) = false := by
  have hmem := mem_foldl_linkFold base (findAllAHref page) ([], []) x
  rcases hx with hx | hx
  · rcases (hmem.1 hx) with hx' | ⟨h, _, hcl⟩
    · simp at hx'
    · obtain ⟨hig, hsh⟩ := classify_internal_shape base h x hcl
      rcases hsh with rfl | rfl
      · show isIgnoredHref (String.mk (pyStripL (pyStrip h).data)) = false
        show isIgnoredHref (String.mk (pyStripL (pyStripL h.data))) = false
        rw [pyStripL_idem]
        exact hig
      · rcases urljoinL_http_or_id base.data (pyStrip h).data hb with hpre | hid
        · apply not_ignored_of_http_prefix
          apply pyStripL_http_prefix
          exact hpre
        · show isIgnoredHref (String.mk (pyStripL (urljoinL base.data (pyStrip h).data))) = false
          rw [hid]
          show isIgnoredHref (String.mk (pyStripL (pyStripL h.data))) = false
          rw [pyStripL_idem]
          exact hig
  · rcases (hmem.2 hx) with hx' | ⟨h, _, hcl⟩
    · simp at hx'
    · obtain ⟨hig, rfl, hpre⟩ := classify_external_shape base h x hcl
      apply not_ignored_of_http_prefix
      apply pyStripL_http_prefix
      exact hpre

/-- Counterexample to C2 as stated: with base URL `mailto:x`, the page
`[<a href="mailto:x">, <a href="">]` has its first href classified
`Ignored`, yet the very same string `mailto:x` ends up in
`internal_links`, produced by the empty href (`urljoin` returns the base
verbatim on an empty reference). -/
theorem c2_counterexample :
    isIgnoredHref (pyStrip "mailto:x") = true ∧
    classify "mailto:x" "mailto:x" = LinkClass.Ignored ∧
    "mailto:x" ∈ (analyze_links failHead [some "mailto:x", some ""]
      "mailto:x" 50).internal_links := by
  refine ⟨rfl, rfl, ?_⟩
  show "mailto:x" ∈ ["mailto:x"]
  exact List.mem_singleton.mpr rfl

/-- C2 amended: when the base URL starts with `http://` or `https://`
(every URL the fetcher accepts does), an href that strips to a `mailto:`,
`javascript:` or `#` prefix is classified `Ignored`, and neither it nor
its stripped form ever appears in `internal_links` or `external_links`.
(For degenerate base URLs the counterexample shows the resolution of a
different href can reproduce an ignored href inside `internal_links`.) -/
theorem c2_amended_ignored_never_linked (net : String → Option Nat)
    (page : List (Option String)) (base : String) (maxC : Nat) (href : String)
    (hb : pyStartsWith base "http://" = true ∨ pyStartsWith base "https://" = true)
    (hig : isIgnoredHref (pyStrip href) = true) :
    classify base href = LinkClass.Ignored ∧
    href ∉ (analyze_links net page base maxC).internal_links ∧
    href ∉ (analyze_links net page base maxC).external_links ∧
    pyStrip href ∉ (analyze_links net page base maxC).internal_links ∧
    pyStrip href ∉ (analyze_links net page base maxC).external_links := by
  refine ⟨?_, ?_, ?_, ?_, ?_⟩
  · unfold classify
    rw [if_pos hig]
  · intro hmem
    have := mem_links_not_ignored net page base maxC href hb (Or.inl hmem)
    rw [hig] at this
    cases this
  · intro hmem
    have := mem_links_not_ignored net page base maxC href hb (Or.inr hmem)
    rw [hig] at this
    cases this
  · intro hmem
    have h2 := mem_links_not_ignored net page base maxC (pyStrip href) hb (Or.inl hmem)
    rw [pyStrip_idem, hig] at h2
    cases h2
  · intro hmem
    have h2 := mem_links_not_ignored net page base maxC (pyStrip href) hb (Or.inr hmem)
    rw [pyStrip_idem, hig] at h2
    cases h2

/-- Witness for the amended C2 on the specification's example page. -/
theorem c2_witness :
    (pyStartsWith "https://site.com" "https://" = true) ∧
    (isIgnoredHref (pyStrip " #top ") = true) ∧
    (classify "https://site.com" " #top " = LinkClass.Ignored ∧
      " #top " ∉ (analyze_links failHead [some " #top ", some "/p", some "https://ext.com"]
        "https://site.com" 50).internal_links ∧
      " #top " ∉ (analyze_links failHead [some " #top ", some "/p", some "https://ext.com"]
        "https://site.com" 50).external_links ∧
      pyStrip " #top " ∉ (analyze_links failHead [some " #top ", some "/p", some "https://ext.com"]
        "https://site.com" 50).internal_links ∧
      pyStrip " #top " ∉ (analyze_links failHead [some " #top ", some "/p", some "https://ext.com"]
        "https://site.com" 50).external_links) :=
  ⟨rfl, rfl,
   c2_amended_ignored_never_linked failHead [some " #top ", some "/p", some "https://ext.com"]
     "https://site.com" 50 " #top " (Or.inr rfl) rfl⟩

/-- Counterexample to C1 as stated: the empty href (from `<a href="">`) is
neither ignored nor absolute, so the claim requires it to be classified
`Internal` at its RFC 3986 resolution; RFC 3986 resolution of the empty
reference against `http://a.com/p#f` is `http://a.com/p` (the base
without its fragment), but the code classifies `Internal` at `urljoin`'s
result, which is the base verbatim, fragment included. -/
theorem c1_counterexample :
    isIgnoredHref (pyStrip "") = false ∧
    pyStartsWith (pyStrip "") "http://" = false ∧
    pyStartsWith (pyStrip "") "https://" = false ∧
    classify "http://a.com/p#f" "" = LinkClass.Internal "http://a.com/p#f" ∧
    rfcResolve "http://a.com/p#f" (pyStrip "") = "http://a.com/p" ∧
    ("http://a.com/p#f" : String) ≠ "http://a.com/p" := by
  refine ⟨rfl, rfl, rfl, rfl, rfl, ?_⟩
  decide

/-- C1 amended: for every non-ignored href, an absolute `http(s)` href is
classified by raw netloc comparison (`Internal` on equality, `External`
otherwise, no normalization of scheme or `www.`), and every other href is
classified `Internal` at its `urljoin` resolution against the base —
CPython's resolution rules, which differ from literal RFC 3986 resolution
on edge cases such as the empty href. -/
theorem c1_amended_classification (base href : String)
    (h : isIgnoredHref (pyStrip href) = false) :
    ((pyStartsWith (pyStrip href) "http://" = true ∨
        pyStartsWith (pyStrip href) "https://" = true) →
      classify base href =
        (if netlocOf (pyStrip href) = netlocOf base then
          LinkClass.Internal (pyStrip href)
        else LinkClass.External (pyStrip href))) ∧
    (pyStartsWith (pyStrip href) "http://" = false →
      pyStartsWith (pyStrip href) "https://" = false →
      classify base href = LinkClass.Internal (urljoin base (pyStrip href))) := by
  constructor
  · intro hp
    unfold classify
    rw [if_neg (by simp [h])]
    rw [if_pos (by rcases hp with hp | hp <;> simp [hp])]
  · intro h1 h2
    unfold classify
    rw [if_neg (by simp [h])]
    rw [if_neg (by simp [h1, h2])]

/-- Witness for the amended C1: the scheme-relative quirk
(`//other.com/x` resolves to another host yet is `Internal`), an absolute
same-host href is `Internal`, and netlocs are compared without `www.` or
scheme normalization. -/
theorem c1_witness :
    isIgnoredHref (pyStrip "//other.com/x") = false ∧
    classify "http://a.com/" "//other.com/x" = LinkClass.Internal "http://other.com/x" ∧
    netlocOf "http://other.com/x" ≠ netlocOf "http://a.com/" ∧
    isIgnoredHref (pyStrip "https://example.org/about") = false ∧
    classify "https://example.org/" "https://example.org/about" =
      LinkClass.Internal "https://example.org/about" ∧
    netlocOf "https://www.x.com" ≠ netlocOf "https://x.com" := by
  have h1 := (c1_amended_classification "http://a.com/" "//other.com/x" rfl).2 rfl rfl
  have h2 := (c1_amended_classification "https://example.org/"
    "https://example.org/about" rfl).1 (Or.inr rfl)
  refine ⟨rfl, ?_, by decide, rfl, ?_, by decide⟩
  · rw [h1]
    rfl
  · rw [h2]
    rfl

end SeoAnalyzer




